import Mathlib

/-!
Shallow embedding of the codegen module builder
(src/include/codegen/module_builder.hpp) and proofs about it.

The C++ header declares `source_code_generator::add_line` and
`source_code_generator::get` but their bodies live in module_builder.cpp,
which is not part of the sources given; those two definitions (and the
initial builder state set up by the module_builder constructor) are
modelled from the spec and marked as such in their doc comments.
Everything else is translated directly from the header.

Machine integers: the indentation counter `indent_` is a C++ `unsigned`
(32 bits); its arithmetic is modelled on `Nat` modulo `uintMod = 2^32`.
-/

set_option maxRecDepth 8192

namespace Codegen

/-- `2^32`, the modulus of the C++ `unsigned` arithmetic used by
`source_code_generator::enter_scope` and `leave_scope`. -/
def uintMod : Nat := 4294967296

/-- A run of `n` spaces, the indentation prefix baked into an appended line. -/
def spaces (n : Nat) : String := String.mk (List.replicate n ' ')

/-- Left-to-right concatenation of string pieces, as a stream insertion
chain or a C++ fold expression produces it. -/
def str_concat : List String → String
  | [] => ""
  | x :: xs => x ++ str_concat xs

/-- `module_builder::source_code_generator` (header lines 61-72).
The C++ member `source_code_`, a stringstream that only ever receives whole
lines terminated by a newline, is modelled as the list of those lines
(without their trailing newline); `get` reassembles the exact stream
contents.  `line_no` mirrors `line_no_` (default-initialised to 1) and
`indent` mirrors the `unsigned indent_` (default-initialised to 0),
kept below `uintMod`. -/
structure source_code_generator where
  lines : List String
  line_no : Nat
  indent : Nat
deriving DecidableEq

/-- A default-constructed `source_code_generator`: empty buffer,
`line_no_ = 1`, `indent_ = 0` (default member initialisers, header
lines 62-64). -/
def source_code_generator.init : source_code_generator :=
  { lines := [], line_no := 1, indent := 0 }

/-- `enter_scope() { indent_ += 4; }` (header line 68), `unsigned` wrap-around. -/
def source_code_generator.enter_scope (g : source_code_generator) : source_code_generator :=
  { g with indent := (g.indent + 4) % uintMod }

/-- `leave_scope() { indent_ -= 4; }` (header line 69).  On a 32-bit
`unsigned`, subtracting 4 is adding `uintMod - 4` modulo `uintMod`;
there is no underflow check. -/
def source_code_generator.leave_scope (g : source_code_generator) : source_code_generator :=
  { g with indent := (g.indent + (uintMod - 4)) % uintMod }

/-- `current_line() const { return line_no_; }` (header line 70). -/
def source_code_generator.current_line (g : source_code_generator) : Nat :=
  g.line_no

/-- Modelled from the spec: the body of `source_code_generator::add_line`
is defined in module_builder.cpp, which is not among the given sources
(the header only declares it, line 67).  Spec 4.3: appends the text,
prefixed by the current indentation, as a new line; returns the 1-based
line number just assigned; increments the counter. -/
def source_code_generator.add_line (g : source_code_generator) (text : String) :
    source_code_generator × Nat :=
  ({ g with lines := g.lines ++ [spaces g.indent ++ text], line_no := g.line_no + 1 },
   g.line_no)

/-- Modelled from the spec: the body of `source_code_generator::get` is
defined in module_builder.cpp, not among the given sources.  Spec 4.3:
returns the full accumulated listing text.  Each appended line was
written with a trailing newline. -/
def source_code_generator.get (g : source_code_generator) : String :=
  str_concat (g.lines.map fun l => l ++ "\n")

/-- An `llvm::DIScope*` as the core uses it: either the scope installed by
the module_builder constructor (the compile unit) or a subprogram created
by `dbg_builder_.createFunction(scope, name, name, file, line, type,
scopeLine, ...)` (header lines 202-205); only the arguments the core
itself supplies and later observes are carried. -/
inductive DIScope where
  | compile_unit : DIScope
  | subprogram (parent : DIScope) (name : String) (line : Nat) (scope_line : Nat) : DIScope
deriving DecidableEq

/-- An `llvm::DebugLoc` as built by `llvm::DebugLoc::get(line, col, scope)`. -/
structure DebugLoc where
  line : Nat
  col : Nat
  scope : DIScope
deriving DecidableEq

/-- An opaque `llvm::Value*` handle: a function argument (function index in
the module, argument index) or an i32 constant (`detail::get_constant`,
header lines 121-123). -/
inductive ValueHandle where
  | arg (fn : Nat) (idx : Nat) : ValueHandle
  | const_i32 (v : Int) : ValueHandle
deriving DecidableEq

/-- An instruction emitted through the `ir_builder_`; the core only emits
return instructions (`CreateRet`, header line 159), which capture the
builder's current debug location. -/
inductive Instr where
  | ret (operand : ValueHandle) (loc : Option DebugLoc) : Instr
deriving DecidableEq

/-- An `llvm::Function*` as the core mutates it: created with a name
(header line 198), its arguments renamed by `prepare_argument` (header
lines 167-171), its subprogram attached by `setSubprogram` (header
line 207). -/
structure LLVMFunction where
  name : String
  arg_names : List String
  subprogram : Option DIScope
deriving DecidableEq

/-- The mutable state of a `module_builder` (header lines 52-93) as the
embedded operations observe it: the source generator `source_code_`, the
debug scope `dbg_scope_`, the `ir_builder_`'s current debug location and
insertion point, and the functions and instructions of `module_`. -/
structure module_builder where
  source_code : source_code_generator
  dbg_scope : DIScope
  dbg_loc : Option DebugLoc
  insert_point : Option Nat
  functions : List LLVMFunction
  instructions : List Instr
deriving DecidableEq

/-- Modelled from the spec: the `module_builder` constructor is defined in
module_builder.cpp, not among the given sources.  It value-initialises the
source generator (whose defaults are in the header) and installs the
compile unit as the initial debug scope; no functions or instructions
exist yet. -/
def module_builder.init : module_builder :=
  { source_code := source_code_generator.init, dbg_scope := DIScope.compile_unit,
    dbg_loc := none, insert_point := none, functions := [], instructions := [] }

/-- `ir_builder_.SetCurrentDebugLocation` (header lines 158 and 209);
`llvm::DebugLoc{}` is the empty location, modelled as `none`. -/
def module_builder.SetCurrentDebugLocation (mb : module_builder) (loc : Option DebugLoc) :
    module_builder :=
  { mb with dbg_loc := loc }

/-- `ir_builder_.CreateRet(v)` (header line 159): emits a return carrying
the builder's current debug location. -/
def module_builder.CreateRet (mb : module_builder) (operand : ValueHandle) : module_builder :=
  { mb with instructions := mb.instructions ++ [Instr.ret operand mb.dbg_loc] }

/-- The host types the closed type trait registry supports (header
lines 99-117): `void` and `int32_t`. -/
inductive CType where
  | void : CType
  | i32 : CType
deriving DecidableEq

/-- `detail::type<T>::name()` (header lines 108 and 116). -/
def CType.name : CType → String
  | CType.void => "void"
  | CType.i32 => "i32"

/-- `codegen::value<Type>` (header lines 127-139): a backend value handle
`value_` plus a display name `name_`; `operator<<` prints the display
name. -/
structure value where
  value_ : ValueHandle
  name_ : String
deriving DecidableEq

/-- `detail::get_constant<int32_t>` (header lines 121-123). -/
def get_constant_i32 (v : Int) : ValueHandle :=
  ValueHandle.const_i32 v

/-- `codegen::constant` (header lines 141-143): wraps the backend literal
with the value's decimal text as display name. -/
def constant (v : Int) : value :=
  { value_ := get_constant_i32 v, name_ := toString v }

/-- `detail::eval` (header lines 147-149): a value converts to its raw
backend handle. -/
def eval (v : value) : ValueHandle :=
  v.value_

/-- `codegen::function_ref` (header lines 42-50): the function's name and
its backend handle (modelled as the index into the module's function
list). -/
structure function_ref where
  name_ : String
  function_ : Nat
deriving DecidableEq

/-- `return_(Value v)` (header lines 155-160): append the textual statement
`return <display-name>;` obtaining a fresh line number, set the current
debug location to that line, column 1, and the current debug scope, then
emit the backend return instruction for the value's handle. -/
def return_ (v : value) (mb : module_builder) : module_builder :=
  let r := mb.source_code.add_line ("return " ++ v.name_ ++ ";")
  let mb1 := { mb with source_code := r.1 }
  let mb2 := mb1.SetCurrentDebugLocation (some { line := r.2, col := 1, scope := mb1.dbg_scope })
  mb2.CreateRet (eval v)

/-- One piece of the declaration's argument list as built by the fold
expression in `call_builder` (header lines 180-181):
`type<A>::name() + " arg" + Idx + (Idx + 1 == n ? "" : ", ")`. -/
def arg_piece (n : Nat) (i : Nat) (a : CType) : String :=
  a.name ++ " arg" ++ toString i ++ (if i + 1 = n then "" else ", ")

/-- The full declaration line built in `call_builder` (header lines
178-182): `type<R>::name() << " " << name << "(" << ...pieces... << ") {"`. -/
def decl_line (ret : CType) (name : String) (args : List CType) : String :=
  ret.name ++ " " ++ name ++ "(" ++
    str_concat ((args.enum).map fun p => arg_piece args.length p.1 p.2) ++ ") \x7b"

/-- Update the function at index `i` of the module's function list, a
mutation through an `llvm::Function*`; out-of-range indices leave the
list unchanged (they never occur). -/
def update_fn (fns : List LLVMFunction) (i : Nat) (h : LLVMFunction → LLVMFunction) :
    List LLVMFunction :=
  match fns, i with
  | [], _ => []
  | f :: fns, 0 => h f :: fns
  | f :: fns, i + 1 => f :: update_fn fns i h

/-- `prepare_argument` (header lines 167-171): names the argument at
position `i` of function `fnIdx` as `arg<i>`. -/
def prepare_argument (fns : List LLVMFunction) (fnIdx : Nat) (i : Nat) : List LLVMFunction :=
  update_fn fns fnIdx fun f => { f with arg_names := f.arg_names.set i ("arg" ++ toString i) }

/-- `fn->setSubprogram(dbg_fn_scope)` (header line 207). -/
def setSubprogram (fns : List LLVMFunction) (fnIdx : Nat) (s : DIScope) : List LLVMFunction :=
  update_fn fns fnIdx fun f => { f with subprogram := some s }

/-- `detail::function_builder::call_builder` (header lines 173-191):
append the declaration line, enter a scope, name the arguments, invoke
the body callback with the positional argument values, leave the scope
and append the closing brace line. -/
def call_builder (ret : CType) (args : List CType) (name : String)
    (fb : List value → module_builder → module_builder)
    (fnIdx : Nat) (mb : module_builder) : module_builder :=
  let r := mb.source_code.add_line (decl_line ret name args)
  let mb1 := { mb with source_code := r.1 }
  let mb2 := { mb1 with source_code := mb1.source_code.enter_scope }
  let mb3 := { mb2 with
    functions := (List.range args.length).foldl (fun fns i => prepare_argument fns fnIdx i)
      mb2.functions }
  let vals := args.enum.map fun p => value.mk (ValueHandle.arg fnIdx p.1) ("arg" ++ toString p.1)
  let mb4 := fb vals mb3
  let mb5 := { mb4 with source_code := mb4.source_code.leave_scope }
  let r2 := mb5.source_code.add_line ("\x7d")
  { mb5 with source_code := r2.1 }

/-- `detail::function_builder::operator()` (header lines 194-219): create
the backend function, create the debug subprogram at the current
synthetic-source line (used both as `line` and `scopeLine`), exchange it
into `dbg_scope_`, attach it to the function, clear the debug location,
create the entry block and set the insertion point, run `call_builder`,
restore the parent debug scope, and return the function reference. -/
def function_builder (ret : CType) (args : List CType) (name : String)
    (fb : List value → module_builder → module_builder)
    (mb : module_builder) : module_builder × function_ref :=
  let fnIdx := mb.functions.length
  let mb1 := { mb with
    functions := mb.functions ++
      [LLVMFunction.mk name (List.replicate args.length "") none] }
  let dbg_fn_scope := DIScope.subprogram mb1.dbg_scope name
    mb1.source_code.current_line mb1.source_code.current_line
  let parent_scope := mb1.dbg_scope
  let mb2 := { mb1 with dbg_scope := dbg_fn_scope }
  let mb3 := { mb2 with functions := setSubprogram mb2.functions fnIdx dbg_fn_scope }
  let mb4 := mb3.SetCurrentDebugLocation none
  let mb5 := { mb4 with insert_point := some fnIdx }
  let mb6 := call_builder ret args name fb fnIdx mb5
  let mb7 := { mb6 with dbg_scope := parent_scope }
  (mb7, { name_ := name, function_ := fnIdx })

/-- `module_builder::create_function` (header lines 224-231).  The
thread-local `detail::current_builder` is modelled as an `Option Nat`
(`none` for null, `some id` for a pointer to the builder with that
identity); `self` is this builder's identity.  The assertion
`current_builder == this || !current_builder` failing is modelled as
`none`; otherwise the builder is installed for the duration of the
construction (the body callback receives the installed context) and the
previous context is restored on completion. -/
def create_function (self : Nat) (ctx : Option Nat) (ret : CType) (args : List CType)
    (name : String) (fb : Option Nat → List value → module_builder → module_builder)
    (mb : module_builder) :
    Option (Option Nat × module_builder × function_ref) :=
  if ctx = some self ∨ ctx = none then
    let prev_builder := ctx
    let r := function_builder ret args name (fb (some self)) mb
    some (prev_builder, r.1, r.2)
  else
    none

/-- An observable call on one `source_code_generator` instance: the three
mutating member functions of header lines 67-69. -/
inductive GenOp where
  | addLine (text : String) : GenOp
  | enterScope : GenOp
  | leaveScope : GenOp
deriving DecidableEq

/-- Whether a generator call is an `add_line` call. -/
def GenOp.isAdd : GenOp → Bool
  | GenOp.addLine _ => true
  | _ => false

/-- One generator call: the successor state, and the returned line number
when the call was `add_line`. -/
def gen_step (g : source_code_generator) : GenOp → source_code_generator × Option Nat
  | GenOp.addLine t => ((g.add_line t).1, some (g.add_line t).2)
  | GenOp.enterScope => (g.enter_scope, none)
  | GenOp.leaveScope => (g.leave_scope, none)

/-- Run a sequence of calls on a generator, collecting the line numbers
returned by the `add_line` calls in order. -/
def runOps (g : source_code_generator) : List GenOp → source_code_generator × List Nat
  | [] => (g, [])
  | op :: ops =>
    match (gen_step g op).2 with
    | some n => ((runOps (gen_step g op).1 ops).1, n :: (runOps (gen_step g op).1 ops).2)
    | none => runOps (gen_step g op).1 ops

/-- The consecutive line numbers `s, s+1, ..., s+n-1`. -/
def count_up (s : Nat) : Nat → List Nat
  | 0 => []
  | n + 1 => s :: count_up (s + 1) n

/-- Balance discipline for a call sequence starting at net open-scope
depth `d`: `leave_scope` never outnumbers `enter_scope`, and (for the
amended indentation claim) the depth stays below `2^30` so that four
times the depth fits the 32-bit counter. -/
def depth_ok (d : Nat) : List GenOp → Bool
  | [] => true
  | GenOp.addLine _ :: ops => depth_ok d ops
  | GenOp.enterScope :: ops => decide (d + 1 < 1073741824) && depth_ok (d + 1) ops
  | GenOp.leaveScope :: ops => decide (0 < d) && depth_ok (d - 1) ops

/-- The net open-scope depth after running a call sequence from depth `d`. -/
def net_depth (d : Nat) : List GenOp → Nat
  | [] => d
  | GenOp.addLine _ :: ops => net_depth d ops
  | GenOp.enterScope :: ops => net_depth (d + 1) ops
  | GenOp.leaveScope :: ops => net_depth (d - 1) ops

/-- The lines a call sequence appends, as the spec describes them: each
appended line carries 4 spaces per net open scope at the time of the
append. -/
def lines_spec (d : Nat) : List GenOp → List String
  | [] => []
  | GenOp.addLine t :: ops => (spaces (4 * d) ++ t) :: lines_spec d ops
  | GenOp.enterScope :: ops => lines_spec (d + 1) ops
  | GenOp.leaveScope :: ops => lines_spec (d - 1) ops

/-- Whether `leave_scope` never outnumbers `enter_scope` at any point of a
call sequence started at net depth `d`. -/
def scopes_nonneg (d : Nat) : List GenOp → Bool
  | [] => true
  | GenOp.addLine _ :: ops => scopes_nonneg d ops
  | GenOp.enterScope :: ops => scopes_nonneg (d + 1) ops
  | GenOp.leaveScope :: ops => decide (0 < d) && scopes_nonneg (d - 1) ops

/-- A balanced sequence of scope calls: `leave_scope` never outnumbers
`enter_scope`, and they match up overall. -/
def balanced (ops : List GenOp) : Bool :=
  scopes_nonneg 0 ops && decide (net_depth 0 ops = 0)

/-- The spec's rendering of the declaration's argument list: the pieces
`<type-name> arg<i>` joined by `", "`. -/
def comma_join : List String → String
  | [] => ""
  | [x] => x
  | x :: y :: ys => x ++ ", " ++ comma_join (y :: ys)

/-- The end-to-end scenario of spec section 8: on a fresh builder with no
active context, construct `i32 add(i32 arg0, i32 arg1)` whose body
returns `arg0` unchanged via `return_`. -/
def add_scenario : Option (Option Nat × module_builder × function_ref) :=
  create_function 0 none CType.i32 [CType.i32, CType.i32] ("add")
    (fun _ vals mb =>
      match vals with
      | v :: _ => return_ v mb
      | [] => mb)
    module_builder.init

/-- Declaration-level facts about a C++ class, as written in its
definition: whether the copy and move constructors are deleted, and
whether `build()` is rvalue-reference-qualified and `[[nodiscard]]`. -/
structure special_member_traits where
  copy_ctor_deleted : Bool
  move_ctor_deleted : Bool
  build_rvalue_qualified : Bool
  build_nodiscard : Bool
deriving DecidableEq

/-- Transcribed from the `module_builder` class definition, header lines
84-90: `module_builder(module_builder const&) = delete;`,
`module_builder(module_builder&&) = delete;`, and
`[[nodiscard]] module build() &&;`. -/
def module_builder_cpp_traits : special_member_traits :=
  { copy_ctor_deleted := true, move_ctor_deleted := true,
    build_rvalue_qualified := true, build_nodiscard := true }

/-! ## Equation lemmas

`simp` cannot unfold the list-recursive definitions directly in this
toolchain, so their defining equations are stated once, by `rfl`. -/

theorem runOps_nil (g : source_code_generator) : runOps g [] = (g, []) := rfl

theorem runOps_cons (g : source_code_generator) (op : GenOp) (ops : List GenOp) :
    runOps g (op :: ops) =
      match (gen_step g op).2 with
      | some n => ((runOps (gen_step g op).1 ops).1, n :: (runOps (gen_step g op).1 ops).2)
      | none => runOps (gen_step g op).1 ops := rfl

theorem runOps_add (g : source_code_generator) (t : String) (ops : List GenOp) :
    runOps g (GenOp.addLine t :: ops) =
      ((runOps (g.add_line t).1 ops).1,
        (g.add_line t).2 :: (runOps (g.add_line t).1 ops).2) := by
  rw [runOps_cons]; rfl

theorem runOps_enter (g : source_code_generator) (ops : List GenOp) :
    runOps g (GenOp.enterScope :: ops) = runOps g.enter_scope ops := by
  rw [runOps_cons]; rfl

theorem runOps_leave (g : source_code_generator) (ops : List GenOp) :
    runOps g (GenOp.leaveScope :: ops) = runOps g.leave_scope ops := by
  rw [runOps_cons]; rfl

theorem runOps_add_fst (g : source_code_generator) (t : String) (ops : List GenOp) :
    (runOps g (GenOp.addLine t :: ops)).1 = (runOps (g.add_line t).1 ops).1 := by
  rw [runOps_add]

theorem enter_scope_lines (g : source_code_generator) : g.enter_scope.lines = g.lines := by
  unfold source_code_generator.enter_scope
  rfl

theorem enter_scope_line_no (g : source_code_generator) : g.enter_scope.line_no = g.line_no := by
  unfold source_code_generator.enter_scope
  rfl

theorem enter_scope_indent (g : source_code_generator) :
    g.enter_scope.indent = (g.indent + 4) % uintMod := by
  unfold source_code_generator.enter_scope
  rfl

theorem leave_scope_lines (g : source_code_generator) : g.leave_scope.lines = g.lines := by
  unfold source_code_generator.leave_scope
  rfl

theorem leave_scope_line_no (g : source_code_generator) : g.leave_scope.line_no = g.line_no := by
  unfold source_code_generator.leave_scope
  rfl

theorem leave_scope_indent (g : source_code_generator) :
    g.leave_scope.indent = (g.indent + (uintMod - 4)) % uintMod := by
  unfold source_code_generator.leave_scope
  rfl

theorem add_line_fst (g : source_code_generator) (t : String) :
    (g.add_line t).1 =
      source_code_generator.mk (g.lines ++ [spaces g.indent ++ t]) (g.line_no + 1) g.indent := rfl

theorem add_line_snd (g : source_code_generator) (t : String) : (g.add_line t).2 = g.line_no := rfl

theorem isAdd_addLine (t : String) : GenOp.isAdd (GenOp.addLine t) = true := rfl

theorem isAdd_enterScope : GenOp.isAdd GenOp.enterScope = false := rfl

theorem isAdd_leaveScope : GenOp.isAdd GenOp.leaveScope = false := rfl

theorem count_up_zero (s : Nat) : count_up s 0 = [] := rfl

theorem count_up_succ (s n : Nat) : count_up s (n + 1) = s :: count_up (s + 1) n := rfl

theorem depth_ok_nil (d : Nat) : depth_ok d [] = true := rfl

theorem depth_ok_add (d : Nat) (t : String) (ops : List GenOp) :
    depth_ok d (GenOp.addLine t :: ops) = depth_ok d ops := rfl

theorem depth_ok_enter (d : Nat) (ops : List GenOp) :
    depth_ok d (GenOp.enterScope :: ops) =
      (decide (d + 1 < 1073741824) && depth_ok (d + 1) ops) := rfl

theorem depth_ok_leave (d : Nat) (ops : List GenOp) :
    depth_ok d (GenOp.leaveScope :: ops) = (decide (0 < d) && depth_ok (d - 1) ops) := rfl

theorem net_depth_nil (d : Nat) : net_depth d [] = d := rfl

theorem net_depth_add (d : Nat) (t : String) (ops : List GenOp) :
    net_depth d (GenOp.addLine t :: ops) = net_depth d ops := rfl

theorem net_depth_enter (d : Nat) (ops : List GenOp) :
    net_depth d (GenOp.enterScope :: ops) = net_depth (d + 1) ops := rfl

theorem net_depth_leave (d : Nat) (ops : List GenOp) :
    net_depth d (GenOp.leaveScope :: ops) = net_depth (d - 1) ops := rfl

theorem lines_spec_nil (d : Nat) : lines_spec d [] = [] := rfl

theorem lines_spec_add (d : Nat) (t : String) (ops : List GenOp) :
    lines_spec d (GenOp.addLine t :: ops) = (spaces (4 * d) ++ t) :: lines_spec d ops := rfl

theorem lines_spec_enter (d : Nat) (ops : List GenOp) :
    lines_spec d (GenOp.enterScope :: ops) = lines_spec (d + 1) ops := rfl

theorem lines_spec_leave (d : Nat) (ops : List GenOp) :
    lines_spec d (GenOp.leaveScope :: ops) = lines_spec (d - 1) ops := rfl

theorem scopes_nonneg_nil (d : Nat) : scopes_nonneg d [] = true := rfl

theorem scopes_nonneg_add (d : Nat) (t : String) (ops : List GenOp) :
    scopes_nonneg d (GenOp.addLine t :: ops) = scopes_nonneg d ops := rfl

theorem scopes_nonneg_enter (d : Nat) (ops : List GenOp) :
    scopes_nonneg d (GenOp.enterScope :: ops) = scopes_nonneg (d + 1) ops := rfl

theorem scopes_nonneg_leave (d : Nat) (ops : List GenOp) :
    scopes_nonneg d (GenOp.leaveScope :: ops) =
      (decide (0 < d) && scopes_nonneg (d - 1) ops) := rfl

theorem str_concat_nil : str_concat [] = "" := rfl

theorem str_concat_cons (x : String) (xs : List String) :
    str_concat (x :: xs) = x ++ str_concat xs := rfl

theorem comma_join_nil : comma_join [] = "" := rfl

theorem comma_join_single (x : String) : comma_join [x] = x := rfl

theorem comma_join_cons (x y : String) (ys : List String) :
    comma_join (x :: y :: ys) = x ++ ", " ++ comma_join (y :: ys) := rfl

theorem update_fn_cons_succ (f : LLVMFunction) (fns : List LLVMFunction) (i : Nat)
    (h : LLVMFunction → LLVMFunction) :
    update_fn (f :: fns) (i + 1) h = f :: update_fn fns i h := rfl

theorem update_fn_cons_zero (f : LLVMFunction) (fns : List LLVMFunction)
    (h : LLVMFunction → LLVMFunction) :
    update_fn (f :: fns) 0 h = h f :: fns := rfl

/-! ## Helper lemmas -/

theorem runOps_returns (ops : List GenOp) : ∀ g : source_code_generator,
    (runOps g ops).2 = count_up g.line_no (ops.countP GenOp.isAdd) ∧
      (runOps g ops).1.line_no = g.line_no + ops.countP GenOp.isAdd := by
  induction ops with
  | nil => intro g; simp [runOps_nil, count_up_zero]
  | cons op ops ih =>
    intro g
    cases op with
    | addLine t =>
      have h := ih (g.add_line t).1
      simp only [runOps_add, List.countP_cons, isAdd_addLine, if_pos,
        source_code_generator.add_line] at h ⊢
      refine ⟨?_, ?_⟩
      · rw [h.1, count_up_succ]
      · rw [h.2]; omega
    | enterScope =>
      have h := ih g.enter_scope
      rw [runOps_enter, List.countP_cons, isAdd_enterScope,
        if_neg (show ¬(false = true) by decide), Nat.add_zero]
      exact ⟨h.1, h.2⟩
    | leaveScope =>
      have h := ih g.leave_scope
      rw [leave_scope_line_no] at h
      rw [runOps_leave, List.countP_cons, isAdd_leaveScope,
        if_neg (show ¬(false = true) by decide), Nat.add_zero]
      exact ⟨h.1, h.2⟩

theorem update_fn_snoc (l : List LLVMFunction) (f : LLVMFunction)
    (h : LLVMFunction → LLVMFunction) :
    update_fn (l ++ [f]) l.length h = l ++ [h f] := by
  induction l with
  | nil =>
    rw [List.nil_append, List.length_nil, update_fn_cons_zero, List.nil_append]
  | cons a t ih =>
    rw [List.cons_append, List.length_cons, update_fn_cons_succ, ih, List.cons_append]

theorem foldl_prepare_snoc (is : List Nat) : ∀ (l : List LLVMFunction) (f : LLVMFunction),
    is.foldl (fun fns i => prepare_argument fns l.length i) (l ++ [f]) =
      l ++ [is.foldl
        (fun g i => { g with arg_names := g.arg_names.set i ("arg" ++ toString i) }) f] := by
  induction is with
  | nil => intro l f; rw [List.foldl_nil, List.foldl_nil]
  | cons i is ih =>
    intro l f
    simp only [List.foldl_cons, prepare_argument, update_fn_snoc]
    exact ih l _

theorem foldl_argnames_fields (is : List Nat) : ∀ f : LLVMFunction,
    (is.foldl
      (fun g i => { g with arg_names := g.arg_names.set i ("arg" ++ toString i) }) f).name =
        f.name ∧
    (is.foldl
      (fun g i => { g with arg_names := g.arg_names.set i ("arg" ++ toString i) }) f).subprogram =
        f.subprogram := by
  induction is with
  | nil => intro f; exact ⟨rfl, rfl⟩
  | cons i is ih =>
    intro f
    rw [List.foldl_cons]
    exact ih _

/-! ## Claim theorems -/

/-- C10: calling `leave_scope` on a generator whose indentation is 0 wraps
the unsigned 32-bit counter to 4294967292; no check or error occurs. -/
theorem leave_scope_wraps (g : source_code_generator) (h : g.indent = 0) :
    (g.leave_scope).indent = 4294967292 := by
  simp [source_code_generator.leave_scope, uintMod, h]

/-- Witness for `leave_scope_wraps` at a fresh generator. -/
theorem leave_scope_wraps_witness :
    (source_code_generator.init.leave_scope).indent = 4294967292 :=
  leave_scope_wraps source_code_generator.init rfl

/-- C7: a function construction restores the builder's debug scope to its
pre-call value, whatever the body callback did internally; stated for
`create_function` over all outcomes via `Option.map`. -/
theorem create_function_restores_dbg_scope (self : Nat) (ctx : Option Nat) (ret : CType)
    (args : List CType) (name : String)
    (fb : Option Nat → List value → module_builder → module_builder) (mb : module_builder) :
    (create_function self ctx ret args name fb mb).map (fun out => out.2.1.dbg_scope) =
      (create_function self ctx ret args name fb mb).map (fun _ => mb.dbg_scope) := by
  by_cases h : ctx = some self ∨ ctx = none
  · simp [create_function, h, function_builder]
  · simp [create_function, h]

/-- C6: `create_function` fails fast exactly when the thread context is
neither null nor this builder; on success the context is restored to its
pre-call value and the construction ran with this builder installed. -/
theorem create_function_context_discipline (self : Nat) (ctx : Option Nat) (ret : CType)
    (args : List CType) (name : String)
    (fb : Option Nat → List value → module_builder → module_builder) (mb : module_builder) :
    (create_function self ctx ret args name fb mb ≠ none ↔ ctx = none ∨ ctx = some self) ∧
    (∀ ctx1 mb1 r, create_function self ctx ret args name fb mb = some (ctx1, mb1, r) →
      ctx1 = ctx ∧ (mb1, r) = function_builder ret args name (fb (some self)) mb) := by
  by_cases h : ctx = some self ∨ ctx = none
  · constructor
    · simp only [create_function, if_pos h]
      constructor
      · intro _; exact h.symm
      · intro _; simp
    · intro ctx1 mb1 r hr
      simp only [create_function, if_pos h, Option.some.injEq, Prod.mk.injEq] at hr
      refine ⟨hr.1.symm, ?_⟩
      rw [← hr.2.1, ← hr.2.2]
  · constructor
    · simp only [create_function, if_neg h]
      constructor
      · intro hc; exact absurd rfl hc
      · intro hc; exact absurd hc.symm h
    · intro ctx1 mb1 r hr
      simp [create_function, if_neg h] at hr

/-- Witness for `create_function_context_discipline`: with no active
context the construction is not rejected. -/
theorem create_function_context_discipline_witness :
    create_function 0 none CType.i32 [] ("f") (fun _ _ s => s) module_builder.init ≠ none :=
  (create_function_context_discipline 0 none CType.i32 [] ("f") (fun _ _ s => s)
    module_builder.init).1.mpr (Or.inl rfl)

/-- C4: on a fresh generator, the line numbers returned by the `add_line`
calls of any call sequence are exactly 1, 2, 3, ...: the k-th `add_line`
call returns k, regardless of interleaved scope calls. -/
theorem add_line_numbers_consecutive (ops : List GenOp) :
    (runOps source_code_generator.init ops).2 = count_up 1 (ops.countP GenOp.isAdd) :=
  (runOps_returns ops source_code_generator.init).1

/-- C3: the valued `return_` appends the statement text
`return <display-name>;` to the listing, and the emitted return
instruction carries a debug location whose line is exactly the listing
line that statement occupies, with column 1 and the current debug scope.
The hypothesis is the generator invariant that the counter names the next
line to be appended. -/
theorem return_sets_loc_to_stmt_line (v : value) (mb : module_builder)
    (h : mb.source_code.line_no = mb.source_code.lines.length + 1) :
    (return_ v mb).source_code.lines =
        mb.source_code.lines ++
          [spaces mb.source_code.indent ++ ("return " ++ v.name_ ++ ";")] ∧
    (return_ v mb).instructions = mb.instructions ++
        [Instr.ret v.value_
          (some (DebugLoc.mk (mb.source_code.lines.length + 1) 1 mb.dbg_scope))] ∧
    (return_ v mb).dbg_loc =
        some (DebugLoc.mk (mb.source_code.lines.length + 1) 1 mb.dbg_scope) := by
  refine ⟨rfl, ?_, ?_⟩ <;>
    simp [return_, source_code_generator.add_line, module_builder.SetCurrentDebugLocation,
      module_builder.CreateRet, eval, h]

/-- Witness for `return_sets_loc_to_stmt_line`: returning the constant 1
on a fresh builder. -/
theorem return_sets_loc_to_stmt_line_witness :
    (return_ (constant 1) module_builder.init).source_code.lines = ["return 1;"] ∧
    (return_ (constant 1) module_builder.init).instructions =
      [Instr.ret (ValueHandle.const_i32 1) (some (DebugLoc.mk 1 1 DIScope.compile_unit))] ∧
    (return_ (constant 1) module_builder.init).dbg_loc =
      some (DebugLoc.mk 1 1 DIScope.compile_unit) := by
  simpa using return_sets_loc_to_stmt_line (constant 1) module_builder.init rfl

/-- C8 counterexample: the claim says `module_builder` is move-only, but
the class also deletes its move constructor (header line 85), so the type
is not movable either. -/
theorem module_builder_not_move_only :
    ¬(module_builder_cpp_traits.copy_ctor_deleted = true ∧
      module_builder_cpp_traits.move_ctor_deleted = false ∧
      module_builder_cpp_traits.build_rvalue_qualified = true) := by
  decide

/-- C8 amended: `module_builder` is neither copyable nor movable (both
constructors deleted), and `build()` is `[[nodiscard]]` and
rvalue-reference-qualified, so finalization is only invocable on a
builder being discarded. -/
theorem module_builder_neither_copyable_nor_movable :
    module_builder_cpp_traits.copy_ctor_deleted = true ∧
    module_builder_cpp_traits.move_ctor_deleted = true ∧
    module_builder_cpp_traits.build_rvalue_qualified = true ∧
    module_builder_cpp_traits.build_nodiscard = true := by
  decide

/-- C1: the end-to-end scenario.  Constructing `i32 add(i32 arg0, i32 arg1)`
whose body returns `arg0` on a fresh builder yields exactly the expected
listing, a debug subprogram at line 1, and a return instruction whose
debug location is line 2 (column 1, scoped to the subprogram). -/
theorem add_scenario_end_to_end :
    (add_scenario.map fun r => r.2.1.source_code.get) =
      some ("i32 add(i32 arg0, i32 arg1) \x7b\n    return arg0;\n\x7d\n") ∧
    (add_scenario.map fun r => r.2.1.functions.map LLVMFunction.subprogram) =
      some [some (DIScope.subprogram DIScope.compile_unit ("add") 1 1)] ∧
    (add_scenario.map fun r => r.2.1.instructions) =
      some [Instr.ret (ValueHandle.arg 0 0)
        (some (DebugLoc.mk 2 1 (DIScope.subprogram DIScope.compile_unit ("add") 1 1)))] := by
  refine ⟨?_, ?_, ?_⟩ <;> decide

/-- C2: the line recorded in a function's debug subprogram equals the line
number returned by the `add_line` call that appends the declaration line
(both read the generator's counter with nothing advancing it in between);
the hypothesis frames the body callback as not replacing the module's
function list, which reflects that callbacks only emit instructions. -/
theorem subprogram_line_eq_decl_add_line (ret : CType) (args : List CType) (name : String)
    (fb : List value → module_builder → module_builder) (mb : module_builder)
    (hfb : ∀ vs s, (fb vs s).functions = s.functions) :
    ((function_builder ret args name fb mb).1).functions.map (fun f => (f.name, f.subprogram)) =
      mb.functions.map (fun f => (f.name, f.subprogram)) ++
        [(name, some (DIScope.subprogram mb.dbg_scope name
          ((mb.source_code.add_line (decl_line ret name args)).2)
          ((mb.source_code.add_line (decl_line ret name args)).2)))] := by
  simp only [function_builder, call_builder, setSubprogram, module_builder.SetCurrentDebugLocation,
    source_code_generator.current_line, source_code_generator.add_line]
  rw [hfb]
  simp only [update_fn_snoc, foldl_prepare_snoc, List.map_append, List.map_cons, List.map_nil]
  have hf := foldl_argnames_fields (List.range args.length)
    { name := name, arg_names := List.replicate args.length "",
      subprogram := some (DIScope.subprogram mb.dbg_scope name mb.source_code.line_no
        mb.source_code.line_no) }
  rw [hf.1, hf.2]

/-- Witness for `subprogram_line_eq_decl_add_line`: a one-argument function
built on a fresh builder with an empty body. -/
theorem subprogram_line_eq_decl_add_line_witness :
    ((function_builder CType.i32 [CType.i32] ("g") (fun _ s => s)
        module_builder.init).1).functions.map (fun f => (f.name, f.subprogram)) =
      [(("g" : String), some (DIScope.subprogram DIScope.compile_unit ("g") 1 1))] := by
  simpa using subprogram_line_eq_decl_add_line CType.i32 [CType.i32] ("g") (fun _ s => s)
    module_builder.init (fun _ _ => rfl)

theorem runOps_append (l1 : List GenOp) : ∀ (g : source_code_generator) (l2 : List GenOp),
    runOps g (l1 ++ l2) = ((runOps (runOps g l1).1 l2).1,
      (runOps g l1).2 ++ (runOps (runOps g l1).1 l2).2) := by
  induction l1 with
  | nil => intro g l2; simp [runOps_nil]
  | cons op l1 ih =>
    intro g l2
    cases hop : (gen_step g op).2 with
    | none =>
      rw [List.cons_append, runOps_cons, hop, runOps_cons, hop]
      exact ih (gen_step g op).1 l2
    | some n =>
      rw [List.cons_append, runOps_cons, hop, runOps_cons, hop]
      simp only [ih (gen_step g op).1 l2, List.cons_append]

theorem runOps_replicate_enter (n : Nat) : ∀ g : source_code_generator, g.indent < uintMod →
    runOps g (List.replicate n GenOp.enterScope) =
      (source_code_generator.mk g.lines g.line_no ((g.indent + 4 * n) % uintMod), []) := by
  induction n with
  | zero =>
    intro g hg
    rw [List.replicate_zero, runOps_nil]
    have h0 : (g.indent + 4 * 0) % uintMod = g.indent := by
      simp only [uintMod] at hg ⊢
      omega
    rw [h0]
  | succ n ih =>
    intro g hg
    have hlt : g.enter_scope.indent < uintMod := by
      rw [enter_scope_indent]
      simp only [uintMod]
      omega
    rw [List.replicate_succ, runOps_enter, ih g.enter_scope hlt,
      enter_scope_lines, enter_scope_line_no, enter_scope_indent]
    have harith : ((g.indent + 4) % uintMod + 4 * n) % uintMod =
        (g.indent + 4 * (n + 1)) % uintMod := by
      simp only [uintMod]
      omega
    rw [harith]

theorem runOps_replicate_leave (n : Nat) : ∀ g : source_code_generator, g.indent < uintMod →
    runOps g (List.replicate n GenOp.leaveScope) =
      (source_code_generator.mk g.lines g.line_no
        ((g.indent + (uintMod - 4) * n) % uintMod), []) := by
  induction n with
  | zero =>
    intro g hg
    rw [List.replicate_zero, runOps_nil]
    have h0 : (g.indent + (uintMod - 4) * 0) % uintMod = g.indent := by
      simp only [uintMod] at hg ⊢
      omega
    rw [h0]
  | succ n ih =>
    intro g hg
    have hlt : g.leave_scope.indent < uintMod := by
      rw [leave_scope_indent]
      simp only [uintMod]
      omega
    rw [List.replicate_succ, runOps_leave, ih g.leave_scope hlt,
      leave_scope_lines, leave_scope_line_no, leave_scope_indent]
    have harith : ((g.indent + (uintMod - 4)) % uintMod + (uintMod - 4) * n) % uintMod =
        (g.indent + (uintMod - 4) * (n + 1)) % uintMod := by
      simp only [uintMod]
      omega
    rw [harith]

theorem scopes_nonneg_enters (n : Nat) : ∀ (d : Nat) (ops : List GenOp),
    scopes_nonneg d (List.replicate n GenOp.enterScope ++ ops) = scopes_nonneg (d + n) ops := by
  induction n with
  | zero => intro d ops; simp
  | succ n ih =>
    intro d ops
    rw [List.replicate_succ, List.cons_append, scopes_nonneg_enter, ih]
    congr 1
    omega

theorem scopes_nonneg_leaves (n : Nat) : ∀ d : Nat, n ≤ d →
    scopes_nonneg d (List.replicate n GenOp.leaveScope) = true := by
  induction n with
  | zero => intro d _; simp [scopes_nonneg_nil]
  | succ n ih =>
    intro d hd
    rw [List.replicate_succ, scopes_nonneg_leave, ih (d - 1) (by omega)]
    simp
    omega

theorem net_depth_enters (n : Nat) : ∀ (d : Nat) (ops : List GenOp),
    net_depth d (List.replicate n GenOp.enterScope ++ ops) = net_depth (d + n) ops := by
  induction n with
  | zero => intro d ops; simp
  | succ n ih =>
    intro d ops
    rw [List.replicate_succ, List.cons_append, net_depth_enter, ih]
    congr 1
    omega

theorem net_depth_leaves (n : Nat) : ∀ d : Nat,
    net_depth d (List.replicate n GenOp.leaveScope) = d - n := by
  induction n with
  | zero => intro d; simp [net_depth_nil]
  | succ n ih =>
    intro d
    rw [List.replicate_succ, net_depth_leave, ih (d - 1)]
    omega

theorem lines_spec_enters (n : Nat) : ∀ (d : Nat) (ops : List GenOp),
    lines_spec d (List.replicate n GenOp.enterScope ++ ops) = lines_spec (d + n) ops := by
  induction n with
  | zero => intro d ops; simp
  | succ n ih =>
    intro d ops
    rw [List.replicate_succ, List.cons_append, lines_spec_enter, ih]
    congr 1
    omega

theorem lines_spec_leaves (n : Nat) : ∀ d : Nat,
    lines_spec d (List.replicate n GenOp.leaveScope) = [] := by
  induction n with
  | zero => intro d; simp [lines_spec_nil]
  | succ n ih =>
    intro d
    rw [List.replicate_succ, lines_spec_leave, ih]

theorem spaces_length (n : Nat) : (spaces n).length = n := by
  simp [spaces, String.length]

theorem runOps_indent_lines (ops : List GenOp) : ∀ (d : Nat) (g : source_code_generator),
    g.indent = 4 * d → d < 1073741824 → depth_ok d ops = true →
    (runOps g ops).1.lines = g.lines ++ lines_spec d ops ∧
      (runOps g ops).1.indent = 4 * net_depth d ops := by
  induction ops with
  | nil =>
    intro d g hg _ _
    rw [runOps_nil, lines_spec_nil, net_depth_nil]
    exact ⟨by rw [List.append_nil], hg⟩
  | cons op ops ih =>
    intro d g hg hd hok
    cases op with
    | addLine t =>
      rw [depth_ok_add] at hok
      have hindent : (g.add_line t).1.indent = 4 * d := hg
      have h := ih d (g.add_line t).1 hindent hd hok
      have hlines : (g.add_line t).1.lines = g.lines ++ [spaces (4 * d) ++ t] := by
        rw [add_line_fst, ← hg]
      constructor
      · rw [runOps_add_fst, h.1, hlines, lines_spec_add, List.append_assoc,
          List.singleton_append]
      · rw [runOps_add_fst, net_depth_add]
        exact h.2
    | enterScope =>
      rw [depth_ok_enter, Bool.and_eq_true, decide_eq_true_eq] at hok
      have hind : g.enter_scope.indent = 4 * (d + 1) := by
        rw [enter_scope_indent, hg]
        simp only [uintMod]
        omega
      have h := ih (d + 1) g.enter_scope hind hok.1 hok.2
      rw [runOps_enter, lines_spec_enter, net_depth_enter]
      refine ⟨?_, h.2⟩
      rw [h.1, enter_scope_lines]
    | leaveScope =>
      rw [depth_ok_leave, Bool.and_eq_true, decide_eq_true_eq] at hok
      have hind : g.leave_scope.indent = 4 * (d - 1) := by
        rw [leave_scope_indent, hg]
        simp only [uintMod]
        omega
      have h := ih (d - 1) g.leave_scope hind (by omega) hok.2
      rw [runOps_leave, lines_spec_leave, net_depth_leave]
      refine ⟨?_, h.2⟩
      rw [h.1, leave_scope_lines]

theorem join_pieces (l : List CType) : ∀ s n : Nat, s + l.length = n →
    str_concat ((List.enumFrom s l).map fun p => arg_piece n p.1 p.2) =
      comma_join ((List.enumFrom s l).map fun p => p.2.name ++ " arg" ++ toString p.1) := by
  induction l with
  | nil => intro s n _; simp [str_concat_nil, comma_join_nil]
  | cons a t ih =>
    intro s n h
    cases t with
    | nil =>
      have hs : s + 1 = n := by simpa using h
      simp [List.enumFrom_cons, str_concat_cons, str_concat_nil, comma_join_single,
        arg_piece, hs, String.append_empty]
    | cons b t' =>
      have hs : ¬(s + 1 = n) := by
        simp only [List.length_cons] at h
        omega
      have h' : (s + 1) + (b :: t').length = n := by
        simp only [List.length_cons] at h ⊢
        omega
      have ihh := ih (s + 1) n h'
      rw [List.enumFrom_cons, List.map_cons, str_concat_cons, ihh,
        List.enumFrom_cons, List.map_cons, List.map_cons, List.map_cons, comma_join_cons]
      simp only [arg_piece, if_neg hs]

/-- C9 counterexample: a balanced sequence that opens 2^30 scopes, appends
one line, and closes them again.  The 32-bit indentation counter wraps to
0, so the appended line carries no indentation, while 4 x (net open
scopes) is 2^32; the per-line indentation correspondence the claim states
fails. -/
theorem indentation_wrap_counterexample :
    balanced (List.replicate 1073741824 GenOp.enterScope ++
        (GenOp.addLine ("x") :: List.replicate 1073741824 GenOp.leaveScope)) = true ∧
    (runOps source_code_generator.init (List.replicate 1073741824 GenOp.enterScope ++
        (GenOp.addLine ("x") :: List.replicate 1073741824 GenOp.leaveScope))).1.lines ≠
      lines_spec 0 (List.replicate 1073741824 GenOp.enterScope ++
        (GenOp.addLine ("x") :: List.replicate 1073741824 GenOp.leaveScope)) := by
  constructor
  · rw [balanced, Bool.and_eq_true, decide_eq_true_eq]
    constructor
    · rw [scopes_nonneg_enters, scopes_nonneg_add]
      exact scopes_nonneg_leaves 1073741824 (0 + 1073741824) (by omega)
    · rw [net_depth_enters, net_depth_add, net_depth_leaves]
  · have he := runOps_replicate_enter 1073741824 source_code_generator.init (by decide)
    have hg1 : (runOps source_code_generator.init
        (List.replicate 1073741824 GenOp.enterScope)).1 = source_code_generator.init := by
      rw [he]
      decide
    have hl := runOps_replicate_leave 1073741824
      (source_code_generator.init.add_line ("x")).1 (by decide)
    have hrun : (runOps source_code_generator.init
        (List.replicate 1073741824 GenOp.enterScope ++
          (GenOp.addLine ("x") :: List.replicate 1073741824 GenOp.leaveScope))).1.lines =
        [spaces 0 ++ "x"] := by
      simp only [runOps_append, hg1, runOps_add, hl]
      simp only [add_line_fst, source_code_generator.init, List.nil_append]
    have hspec : lines_spec 0 (List.replicate 1073741824 GenOp.enterScope ++
        (GenOp.addLine ("x") :: List.replicate 1073741824 GenOp.leaveScope)) =
        [spaces (4 * (0 + 1073741824)) ++ "x"] := by
      rw [lines_spec_enters, lines_spec_add, lines_spec_leaves]
    rw [hrun, hspec]
    intro hcontra
    simp only [List.cons.injEq, and_true] at hcontra
    have hlen := congrArg String.length hcontra
    rw [String.length_append, String.length_append, spaces_length, spaces_length] at hlen
    omega

/-- C9 amended: for any balanced call sequence whose net open-scope depth
stays below 2^30 (so that 4 x depth fits the 32-bit counter), every
appended line is prefixed with exactly 4 spaces per net open scope at the
time of the append, and the final indentation is 4 x the net depth
(never negative: it is a natural number).  Beyond depth 2^30 the unsigned
counter wraps and the correspondence fails. -/
theorem indentation_tracks_depth (ops : List GenOp) (h : depth_ok 0 ops = true) :
    (runOps source_code_generator.init ops).1.lines = lines_spec 0 ops ∧
    (runOps source_code_generator.init ops).1.indent = 4 * net_depth 0 ops := by
  have h0 := runOps_indent_lines ops 0 source_code_generator.init rfl (by omega) h
  exact ⟨by simpa using h0.1, h0.2⟩

/-- Witness for `indentation_tracks_depth`: one scope holding one line. -/
theorem indentation_tracks_depth_witness :
    (runOps source_code_generator.init
        [GenOp.enterScope, GenOp.addLine ("a"), GenOp.leaveScope]).1.lines =
      lines_spec 0 [GenOp.enterScope, GenOp.addLine ("a"), GenOp.leaveScope] ∧
    (runOps source_code_generator.init
        [GenOp.enterScope, GenOp.addLine ("a"), GenOp.leaveScope]).1.indent =
      4 * net_depth 0 [GenOp.enterScope, GenOp.addLine ("a"), GenOp.leaveScope] :=
  indentation_tracks_depth [GenOp.enterScope, GenOp.addLine ("a"), GenOp.leaveScope] (by decide)

/-- C5: constructing a function appends exactly one declaration line (the
registry names, the purely positional labels `arg0..arg(n-1)` joined by
`", "`, empty parentheses when there are no arguments) and exactly one
closing brace line around whatever the body callback appended.  The
callback is framed as append-only and scope-balanced, which the statement
takes as hypotheses. -/
theorem function_emits_decl_and_close (ret : CType) (args : List CType) (name : String)
    (fb : List value → module_builder → module_builder) (mb : module_builder)
    (body_lines : List value → module_builder → List String)
    (h1 : ∀ vs s, ((fb vs s).source_code).lines = s.source_code.lines ++ body_lines vs s)
    (h2 : ∀ vs s, ((fb vs s).source_code).indent = s.source_code.indent)
    (h3 : mb.source_code.indent < uintMod) :
    (∃ body, ((function_builder ret args name fb mb).1).source_code.lines =
      mb.source_code.lines ++ [spaces mb.source_code.indent ++ decl_line ret name args] ++
        body ++ [spaces mb.source_code.indent ++ "\x7d"]) ∧
    decl_line ret name args = ret.name ++ " " ++ name ++ "(" ++
      comma_join ((args.enum).map fun p => p.2.name ++ " arg" ++ toString p.1) ++ ") \x7b" ∧
    decl_line ret name [] = ret.name ++ " " ++ name ++ "() \x7b" := by
  refine ⟨?_, ?_, ?_⟩
  · simp only [function_builder, call_builder, module_builder.SetCurrentDebugLocation,
      source_code_generator.add_line]
    rw [leave_scope_lines, leave_scope_indent]
    simp only [h1, h2, enter_scope_lines, enter_scope_indent]
    have hind : ((mb.source_code.indent + 4) % uintMod + (uintMod - 4)) % uintMod =
        mb.source_code.indent := by
      simp only [uintMod] at h3 ⊢
      omega
    rw [hind]
    exact ⟨_, rfl⟩
  · show decl_line ret name args = _
    rw [decl_line]
    have h := join_pieces args 0 args.length (Nat.zero_add args.length)
    rw [show List.enum args = List.enumFrom 0 args from rfl, h]
  · rw [decl_line]
    simp only [List.enum_nil, List.map_nil, str_concat_nil, String.append_empty]
    rw [String.append_assoc (ret.name ++ " " ++ name)]
    rw [show ("(" : String) ++ ") \x7b" = "() \x7b" from by decide]

/-- Witness for `function_emits_decl_and_close`: a zero-argument `void`
function with an empty body on a fresh builder. -/
theorem function_emits_decl_and_close_witness :
    (∃ body, ((function_builder CType.void [] ("f") (fun _ s => s)
        module_builder.init).1).source_code.lines =
      module_builder.init.source_code.lines ++
        [spaces module_builder.init.source_code.indent ++ decl_line CType.void ("f") []] ++
        body ++ [spaces module_builder.init.source_code.indent ++ "\x7d"]) ∧
    decl_line CType.void ("f") [] = CType.void.name ++ " " ++ "f" ++ "(" ++
      comma_join (([] : List CType).enum.map fun p => p.2.name ++ " arg" ++ toString p.1) ++
        ") \x7b" ∧
    decl_line CType.void ("f") [] = CType.void.name ++ " " ++ "f" ++ "() \x7b" :=
  function_emits_decl_and_close CType.void [] ("f") (fun _ s => s) module_builder.init
    (fun _ _ => []) (fun _ s => by simp) (fun _ _ => rfl) (by decide)

end Codegen
